import Mathlib

/-!
Verification development for the quiz platform in `src/app.py`.

The program is a single-file Streamlit app.  The embedding below translates
its pure logic into Lean:

* Python objects decoded from JSON are modelled by the inductive `Json`.
  `json.loads` itself is an external library routine; functions that consume
  its result take an `Option Json` (with `none` standing for "the input was
  not valid JSON", the case `json.loads` raises in).
* Python exceptions are modelled with `Except PyExn`; the app's bare
  `except:` handlers correspond to matching on the `.error` case.
* The filesystem is modelled as explicit state: the singleton quiz file
  `latest_quiz.json` is an `Option Json` slot (what `json.dump` wrote, since
  `json.dump`/`json.load` are mutually inverse on the written object shape),
  and the `results_*.json` files are a name-to-content association list.
* `datetime` values are modelled by the `DT` structure; `str(datetime)` and
  `datetime.fromisoformat` are modelled character-faithfully on the grammar
  `str` produces.
-/

namespace QuizApp

/-- Model of a decoded JSON value (a Python object produced by `json.loads`). -/
inductive Json where
  | null : Json
  | bool (b : Bool) : Json
  | num (n : Int) : Json
  | str (s : String) : Json
  | arr (xs : List Json) : Json
  | obj (fields : List (String × Json)) : Json

/-- The Python exceptions the modelled code paths can raise. -/
inductive PyExn where
  | keyError : PyExn
  | typeError : PyExn
deriving DecidableEq

/-- Python subscripting `data[k]` with a string key: on a dict it looks the key
up (raising `KeyError` when absent); on any non-dict value it raises
`TypeError`. -/
def getField (j : Json) (k : String) : Except PyExn Json :=
  match j with
  | .obj fields =>
    match fields.lookup k with
    | some v => .ok v
    | none => .error .keyError
  | _ => .error .typeError

/-- Python iteration `for item in x`: lists yield their elements in order,
strings yield their characters as one-character strings, dicts yield their
keys; other values are not iterable and raise `TypeError`. -/
def iterElems (j : Json) : Except PyExn (List Json) :=
  match j with
  | .arr xs => .ok xs
  | .str s => .ok (s.data.map (fun c => Json.str (String.mk [c])))
  | .obj fields => .ok (fields.map (fun p => Json.str p.1))
  | _ => .error .typeError

/-- One parsed question, as built by the loop in `parse_quiz` (`app.py`
lines 76-84).  The fields hold whatever JSON values the input carried;
`parse_quiz` performs no type validation on them. -/
structure Question where
  question : Json
  options : Json
  correct : Json
  explanation : Json

/-- The dict built for one element of `data["questions"]` in `parse_quiz`:
four subscript accesses, each of which raises if the item is not a dict or
lacks the key. -/
def parseItem (item : Json) : Except PyExn Question :=
  match getField item "question" with
  | .error e => .error e
  | .ok q =>
    match getField item "options" with
    | .error e => .error e
    | .ok o =>
      match getField item "correct" with
      | .error e => .error e
      | .ok c =>
        match getField item "explanation" with
        | .error e => .error e
        | .ok ex => .ok ⟨q, o, c, ex⟩

/-- The `for item in data["questions"]` accumulation loop of `parse_quiz`:
items are parsed in order and the first raised exception aborts the loop. -/
def parseItems (items : List Json) : Except PyExn (List Question) :=
  match items with
  | [] => .ok []
  | item :: rest =>
    match parseItem item with
    | .error e => .error e
    | .ok q =>
      match parseItems rest with
      | .error e => .error e
      | .ok qs => .ok (q :: qs)

/-- `parse_quiz` (`app.py` lines 69-84).  The argument is the outcome of
`json.loads(quiz_text)`: `none` when the text is not valid JSON (the app
catches that, shows an error and returns `None`, modelled as `.ok none`).
All later subscripting is outside the `try`, so its exceptions escape
(`.error`). -/
def parse_quiz (loaded : Option Json) : Except PyExn (Option (List Question)) :=
  match loaded with
  | none => .ok none
  | some data =>
    match getField data "questions" with
    | .error e => .error e
    | .ok qsVal =>
      match iterElems qsVal with
      | .error e => .error e
      | .ok items =>
        match parseItems items with
        | .error e => .error e
        | .ok parsed => .ok (some parsed)

/-- A naive `datetime.datetime` value. -/
structure DT where
  year : Nat
  month : Nat
  day : Nat
  hour : Nat
  minute : Nat
  second : Nat
  micro : Nat
deriving DecidableEq

/-- Gregorian leap-year rule used by `datetime`. -/
def isLeap (y : Nat) : Bool :=
  (y % 4 == 0 && y % 100 != 0) || y % 400 == 0

/-- Number of days in a month, as validated by the `datetime` constructor. -/
def daysInMonth (y m : Nat) : Nat :=
  if m = 1 ∨ m = 3 ∨ m = 5 ∨ m = 7 ∨ m = 8 ∨ m = 10 ∨ m = 12 then 31
  else if m = 4 ∨ m = 6 ∨ m = 9 ∨ m = 11 then 30
  else if isLeap y then 29 else 28

/-- The field ranges every constructed `datetime.datetime` object satisfies
(`MINYEAR/MAXYEAR`, calendar-valid day, clock-valid time). -/
def DT.validb (dt : DT) : Bool :=
  decide (1 ≤ dt.year) && decide (dt.year ≤ 9999) &&
  decide (1 ≤ dt.month) && decide (dt.month ≤ 12) &&
  decide (1 ≤ dt.day) && decide (dt.day ≤ daysInMonth dt.year dt.month) &&
  decide (dt.hour ≤ 23) && decide (dt.minute ≤ 59) &&
  decide (dt.second ≤ 59) && decide (dt.micro ≤ 999999)

/-- The decimal digit character for `m`, for `m < 10`. -/
def digChar (m : Nat) : Char :=
  match m with
  | 0 => '0' | 1 => '1' | 2 => '2' | 3 => '3' | 4 => '4'
  | 5 => '5' | 6 => '6' | 7 => '7' | 8 => '8' | _ => '9'

/-- Digit character of the given decimal position of `n` (`%0kd` padding
writes position by position). -/
def digitAt (n pos : Nat) : Char := digChar (n / pos % 10)

/-- Numeric value of a digit character. -/
def digVal (c : Char) : Nat := c.toNat - 48

/-- Zero-padded 4-digit rendering (`%04d` for values below 10000). -/
def pad4 (n : Nat) : List Char :=
  [digitAt n 1000, digitAt n 100, digitAt n 10, digitAt n 1]

/-- Zero-padded 2-digit rendering (`%02d` for values below 100). -/
def pad2 (n : Nat) : List Char :=
  [digitAt n 10, digitAt n 1]

/-- Zero-padded 6-digit rendering (`%06d` for values below 1000000). -/
def pad6 (n : Nat) : List Char :=
  [digitAt n 100000, digitAt n 10000, digitAt n 1000, digitAt n 100,
   digitAt n 10, digitAt n 1]

/-- `str(datetime)`: `YYYY-MM-DD HH:MM:SS`, with `.ffffff` appended exactly
when the microsecond field is non-zero. -/
def str_dt (dt : DT) : List Char :=
  pad4 dt.year ++ '-' :: (pad2 dt.month ++ '-' :: (pad2 dt.day ++
    ' ' :: (pad2 dt.hour ++ ':' :: (pad2 dt.minute ++ ':' :: (pad2 dt.second ++
      (if dt.micro = 0 then [] else '.' :: pad6 dt.micro))))))

/-- Read exactly two digit characters. -/
def parse2 (l : List Char) : Option (Nat × List Char) :=
  match l with
  | a :: b :: rest =>
    if a.isDigit && b.isDigit then some (digVal a * 10 + digVal b, rest) else none
  | _ => none

/-- Read exactly four digit characters. -/
def parse4 (l : List Char) : Option (Nat × List Char) :=
  match l with
  | a :: b :: c :: d :: rest =>
    if a.isDigit && b.isDigit && c.isDigit && d.isDigit then
      some (((digVal a * 10 + digVal b) * 10 + digVal c) * 10 + digVal d, rest)
    else none
  | _ => none

/-- Read exactly six digit characters. -/
def parse6 (l : List Char) : Option (Nat × List Char) :=
  match l with
  | a :: b :: c :: d :: e :: f :: rest =>
    if a.isDigit && b.isDigit && c.isDigit && d.isDigit && e.isDigit && f.isDigit then
      some (((((digVal a * 10 + digVal b) * 10 + digVal c) * 10 + digVal d) * 10
               + digVal e) * 10 + digVal f, rest)
    else none
  | _ => none

/-- Consume one expected character. -/
def expectChar (c : Char) (l : List Char) : Option (List Char) :=
  match l with
  | x :: rest => if x = c then some rest else none
  | [] => none

/-- Consume the date/time separator (`str` emits a space; `fromisoformat`
also accepts `T`). -/
def expectSep (l : List Char) : Option (List Char) :=
  match l with
  | x :: rest => if x = ' ' ∨ x = 'T' then some rest else none
  | [] => none

/-- Optional fractional-seconds suffix: nothing, or `.` followed by exactly
the six digits `str` emits. -/
def parseFrac (l : List Char) : Option Nat :=
  match l with
  | [] => some 0
  | '.' :: rest =>
    match parse6 rest with
    | some (u, []) => some u
    | _ => none
  | _ => none

/-- `datetime.fromisoformat`, modelled on the grammar `str(datetime)`
produces (`YYYY-MM-DD HH:MM:SS[.ffffff]`, `T` also accepted as separator);
field values are range-checked as the `datetime` constructor does, `none`
standing for a raised `ValueError`. -/
def fromisoformat (l : List Char) : Option DT := do
  let (y, l) ← parse4 l
  let l ← expectChar '-' l
  let (mo, l) ← parse2 l
  let l ← expectChar '-' l
  let (d, l) ← parse2 l
  let l ← expectSep l
  let (h, l) ← parse2 l
  let l ← expectChar ':' l
  let (mi, l) ← parse2 l
  let l ← expectChar ':' l
  let (s, l) ← parse2 l
  let u ← parseFrac l
  let dt : DT := ⟨y, mo, d, h, mi, s, u⟩
  if dt.validb then some dt else none

/-- Python `<` on `datetime` objects: lexicographic comparison of the field
tuples. -/
def dtLtb (a b : DT) : Bool :=
  if a.year ≠ b.year then decide (a.year < b.year)
  else if a.month ≠ b.month then decide (a.month < b.month)
  else if a.day ≠ b.day then decide (a.day < b.day)
  else if a.hour ≠ b.hour then decide (a.hour < b.hour)
  else if a.minute ≠ b.minute then decide (a.minute < b.minute)
  else if a.second ≠ b.second then decide (a.second < b.second)
  else decide (a.micro < b.micro)

/-- Python `<=` on `datetime` objects (total order: `a <= b` iff `¬ b < a`). -/
def dtLeb (a b : DT) : Bool := !dtLtb b a

/-- Propositional form of the lexicographic `datetime` order, used to reason
about `dtLtb`. -/
def dtLtProp (a b : DT) : Prop :=
  a.year < b.year ∨ (a.year = b.year ∧
    (a.month < b.month ∨ (a.month = b.month ∧
      (a.day < b.day ∨ (a.day = b.day ∧
        (a.hour < b.hour ∨ (a.hour = b.hour ∧
          (a.minute < b.minute ∨ (a.minute = b.minute ∧
            (a.second < b.second ∨ (a.second = b.second ∧
              a.micro < b.micro)))))))))))

/-- Outcome of the timing control block (`app.py` lines 307-314): the state
carries the timestamp the rejection message shows. -/
inductive GateState where
  | beforeWindow (shown : DT) : GateState
  | openWindow : GateState
  | expired (shown : DT) : GateState
deriving DecidableEq

/-- Timing control (`app.py` lines 307-314): `now < start_time` stops with
the start time shown; otherwise `now > end_time` stops with the end time
shown; otherwise the student proceeds. -/
def timingGate (now startTime endTime : DT) : GateState :=
  if dtLtb now startTime then .beforeWindow startTime
  else if dtLtb endTime now then .expired endTime
  else .openWindow

/-- Characters Python `str.strip()` removes. -/
def pyIsSpace (c : Char) : Bool :=
  c = ' ' || c = '\t' || c = '\n' || c = '\r' || c = '\x0b' || c = '\x0c'

/-- Python `str.strip()`: drop leading whitespace, then trailing whitespace
(via reversal). -/
def pyStrip (l : List Char) : List Char :=
  (((l.dropWhile pyIsSpace).reverse.dropWhile pyIsSpace)).reverse

/-- `str.strip()` lifted to `String`. -/
def pyStripS (s : String) : String := String.mk (pyStrip s.data)

/-- Python `==` between the string `l` and an arbitrary object `j`:
value equality when `j` is a string, `False` for any other type. -/
def jsonStrEq (l : List Char) (j : Json) : Bool :=
  match j with
  | .str t => t.data == l
  | _ => false

/-- One iteration of the scoring loop (`app.py` lines 333-339):
`user_answers[i][0] == q["correct"]` inside `try`.  Subscripting `None`
raises `TypeError`, subscripting an empty string raises `IndexError`; both
are caught by the bare `except`, modelled as `.error`. -/
def checkAnswer (ans : Option String) (q : Question) : Except Unit Bool :=
  match ans with
  | none => .error ()
  | some s =>
    match s.data with
    | [] => .error ()
    | c :: _ => .ok (jsonStrEq [c] q.correct)

/-- The scoring loop (`app.py` lines 332-339): `enumerate(parsed_questions)`
with `user_answers[i]` is traversed pairwise; running past the end of
`user_answers` is the `IndexError` case, and the first caught exception
aborts (score never reported). -/
def scoreAnswers (qs : List Question) (ans : List (Option String)) : Except Unit Nat :=
  match qs, ans with
  | [], _ => .ok 0
  | _ :: _, [] => .error ()
  | q :: qs', a :: ans' =>
    match checkAnswer a q with
    | .error e => .error e
    | .ok b =>
      match scoreAnswers qs' ans' with
      | .error e => .error e
      | .ok n => .ok (if b then n + 1 else n)

/-- The count the specification describes: positions whose answer's first
character equals the question's `correct` value. -/
def countMatches (qs : List Question) (ans : List (Option String)) : Nat :=
  (qs.zip ans).countP (fun p =>
    match p.2 with
    | some s =>
      match s.data with
      | [] => false
      | c :: _ => jsonStrEq [c] p.1.correct
    | none => false)

/-- Student-name normalization (`app.py` line 294):
`st.text_input(...).strip().replace(" ", "_") or "Unknown"`.
`str.replace(" ", "_")` with a one-character pattern maps each space to an
underscore; `or` substitutes the sentinel when the result is falsy (empty). -/
def normalizeName (s : String) : String :=
  let r := String.mk ((pyStrip s.data).map (fun c => if c = ' ' then '_' else c))
  if r = "" then "Unknown" else r

/-- Modelled from the spec sentence of C9 only (for comparison with
`normalizeName`): "the stored studentName is the input normalized by
replacing whitespace, and if the input is empty the sentinel Unknown is
used instead". -/
def specNormalizeName (s : String) : String :=
  if s = "" then "Unknown"
  else String.mk (s.data.map (fun c => if pyIsSpace c then '_' else c))

/-- `text.startswith("```")`. -/
def fenceStart (l : List Char) : Bool := l.take 3 == "```".data

/-- Python `text.replace("```json", "")`: left-to-right removal of every
occurrence of the 7-character opening-fence tag. -/
def stripJsonTag : List Char → List Char
  | '`' :: '`' :: '`' :: 'j' :: 's' :: 'o' :: 'n' :: rest => stripJsonTag rest
  | c :: rest => c :: stripJsonTag rest
  | [] => []

/-- Python `text.replace("```", "")`: left-to-right removal of every
occurrence of three consecutive backticks. -/
def stripTicks : List Char → List Char
  | '`' :: '`' :: '`' :: rest => stripTicks rest
  | c :: rest => c :: stripTicks rest
  | [] => []

/-- Post-processing of the generation service's response in `generate_quiz`
(`app.py` lines 57-63); the service call itself is external, so the function
takes the raw response text. -/
def generate_quiz (responseText : String) : String :=
  let t := pyStrip responseText.data
  if fenceStart t then String.mk (pyStrip (stripTicks (stripJsonTag t)))
  else String.mk t

/-- A list of characters with no leading and no trailing strippable
whitespace. -/
def noEdgeWS (l : List Char) : Prop :=
  (∀ c, l.head? = some c → pyIsSpace c = false) ∧
  (∀ c, l.getLast? = some c → pyIsSpace c = false)

/-- `save_quiz_file` (`app.py` lines 90-101): the object `json.dump` writes
to `latest_quiz.json` on the happy path (an I/O failure would be caught and
reported; it leaves no partial record to load).  Timestamps arrive already
serialized by the caller (`str(start_time)`, `app.py` line 252). -/
def save_quiz_file (quizText startTime endTime : String) : Option Json :=
  some (Json.obj [("quiz_text", .str quizText),
                  ("start_time", .str startTime),
                  ("end_time", .str endTime)])

/-- `load_quiz_file` (`app.py` lines 104-109): returns the decoded content of
`latest_quiz.json`, or `None` when the file is absent or unreadable
(`json.load` inverts `json.dump` on the written object). -/
def load_quiz_file (slot : Option Json) : Option Json := slot

/-- Reading one timestamp field of the loaded quiz record as the student flow
does (`app.py` lines 303-304): subscript, then `datetime.fromisoformat`;
`none` covers every raising case (missing key, non-dict record, non-string
value, unparsable text). -/
def readTime (qd : Json) (k : String) : Option DT :=
  match getField qd k with
  | .ok (.str s) => fromisoformat s.data
  | _ => none

/-- The quiz window carried by a loaded quiz record, when extractable. -/
def quizWindow (quizFile : Option Json) : Option (DT × DT) :=
  match quizFile with
  | none => none
  | some qd =>
    match readTime qd "start_time", readTime qd "end_time" with
    | some s, some e => some (s, e)
    | _, _ => none

/-- The working directory's `results_*.json` files: filename-to-decoded-content
association (the app's only result datastore). -/
structure FileStore where
  files : List (String × Json)

/-- Writing a file: overwrite the content under an existing name, otherwise
create the entry. -/
def writeFile (rs : FileStore) (fn : String) (c : Json) : FileStore :=
  if rs.files.any (fun p => p.1 == fn) then
    ⟨rs.files.map (fun p => if p.1 == fn then (fn, c) else p)⟩
  else ⟨rs.files ++ [(fn, c)]⟩

/-- `glob.glob("results_*.json")` membership: the fixed head and tail around
a slash-free middle. -/
def globMatch (fn : String) : Bool :=
  (fn.data.take 8 == "results_".data) && decide (13 ≤ fn.data.length) &&
  (fn.data.drop (fn.data.length - 5) == ".json".data) && decide ('/' ∉ fn.data)

/-- `datetime.now().strftime('%Y-%m-%d_%H-%M-%S')` (`app.py` line 117). -/
def fmtTimestamp (now : DT) : List Char :=
  pad4 now.year ++ '-' :: (pad2 now.month ++ '-' :: (pad2 now.day ++
    '_' :: (pad2 now.hour ++ '-' :: (pad2 now.minute ++ '-' :: pad2 now.second))))

/-- The JSON object recorded for one answered question (`app.py`
lines 120-126); `json.dump` writes Python `None` as `null`. -/
def mkAnswerJson (q : Question) (a : Option String) : Json :=
  .obj [("question", q.question),
        ("student_answer", match a with | some s => .str s | none => .null),
        ("correct_answer", q.correct),
        ("explanation", q.explanation)]

/-- The `results` accumulation loop of `save_student_results` (`app.py`
lines 118-126): indexing `user_answers[i]` past its length raises
`IndexError`, caught by the function's bare `except` (modelled `none`). -/
def buildResults : List Question → List (Option String) → Option (List Json)
  | [], _ => some []
  | _ :: _, [] => none
  | q :: qs, a :: ans =>
    match buildResults qs ans with
    | none => none
    | some rest => some (mkAnswerJson q a :: rest)

/-- `save_student_results` (`app.py` lines 115-140): build the per-question
records, then write `results_{student_name}_{timestamp}.json`; on a caught
exception nothing is written and `None` is returned. -/
def save_student_results (studentName : String) (score : Nat)
    (parsedQuestions : List Question) (userAnswers : List (Option String))
    (now : DT) (rs : FileStore) : FileStore × Option String :=
  match buildResults parsedQuestions userAnswers with
  | none => (rs, none)
  | some results =>
    let fn := "results_" ++ studentName ++ "_" ++ String.mk (fmtTimestamp now) ++ ".json"
    (writeFile rs fn (Json.obj [("student_name", .str studentName),
                                ("score", .num score),
                                ("answers", .arr results)]),
     some fn)

/-- `load_all_results` (`app.py` lines 146-155): decode every file matching
`results_*.json` (the store holds decoded content, so the happy path
collects the contents of the matching files). -/
def load_all_results (rs : FileStore) : List Json :=
  (rs.files.filter (fun p => globMatch p.1)).map (fun p => p.2)

/-- Outcome of the Submit Answers block. -/
inductive SubmitOutcome where
  | validationRejected : SubmitOutcome
  | checkError : SubmitOutcome
  | success (score : Nat) (file : Option String) : SubmitOutcome

/-- The Submit Answers block (`app.py` lines 327-345): reject when any answer
is `None`; otherwise run the scoring loop (stopping on a caught exception);
on success report the score and save the result record. -/
def submitAnswers (parsedQuestions : List Question) (userAnswers : List (Option String))
    (studentName : String) (now : DT) (rs : FileStore) : FileStore × SubmitOutcome :=
  if none ∈ userAnswers then (rs, .validationRejected)
  else
    match scoreAnswers parsedQuestions userAnswers with
    | .error _ => (rs, .checkError)
    | .ok score =>
      let (rs', fn) := save_student_results studentName score parsedQuestions userAnswers now rs
      (rs', .success score fn)

/-- Python truthiness of a decoded JSON value (`if not quiz_data`,
`if not parsed_questions`). -/
def jsonTruthy (j : Json) : Bool :=
  match j with
  | .null => false
  | .bool b => b
  | .num n => n != 0
  | .str s => !s.data.isEmpty
  | .arr xs => !xs.isEmpty
  | .obj fields => !fields.isEmpty

/-- How one run of Student mode ends. -/
inductive StudentOutcome where
  | noQuiz : StudentOutcome
  | crash : StudentOutcome
  | notStarted (shown : DT) : StudentOutcome
  | expiredStop (shown : DT) : StudentOutcome
  | parseFailed : StudentOutcome
  | notSubmitted : StudentOutcome
  | rejectedUnanswered : StudentOutcome
  | checkError : StudentOutcome
  | done (score : Nat) (file : Option String) : StudentOutcome

/-- One run of Student mode (`app.py` lines 291-345).  `loads` abstracts
`json.loads` on the stored quiz text (`none` = raises, caught inside
`parse_quiz`); `selections` gives the radio choice rendered for question `i`
(`None` until the student picks); `submitted` is the Submit button.
Uncaught exceptions (subscript/`fromisoformat` on lines 302-304) end the run
with `.crash` before anything is written. -/
def studentMode (loads : String → Option Json) (quizFile : Option Json)
    (now : DT) (selections : Nat → Option String) (submitted : Bool)
    (rawName : String) (rs : FileStore) : FileStore × StudentOutcome :=
  let studentName := normalizeName rawName
  match quizFile with
  | none => (rs, .noQuiz)
  | some qd =>
    if !jsonTruthy qd then (rs, .noQuiz)
    else
      match getField qd "quiz_text" with
      | .error _ => (rs, .crash)
      | .ok qt =>
        match readTime qd "start_time" with
        | none => (rs, .crash)
        | some startTime =>
          match readTime qd "end_time" with
          | none => (rs, .crash)
          | some endTime =>
            match timingGate now startTime endTime with
            | .beforeWindow t => (rs, .notStarted t)
            | .expired t => (rs, .expiredStop t)
            | .openWindow =>
              let loaded := match qt with | .str s => loads s | _ => none
              match parse_quiz loaded with
              | .error _ => (rs, .crash)
              | .ok none => (rs, .parseFailed)
              | .ok (some parsed) =>
                if parsed.isEmpty then (rs, .parseFailed)
                else
                  let userAnswers := (List.range parsed.length).map selections
                  if !submitted then (rs, .notSubmitted)
                  else
                    match submitAnswers parsed userAnswers studentName now rs with
                    | (rs', .validationRejected) => (rs', .rejectedUnanswered)
                    | (rs', .checkError) => (rs', .checkError)
                    | (rs', .success sc fn) => (rs', .done sc fn)

/-- The field value `getField` yields, defaulting to `null` (observer used in
theorem statements). -/
def getD (j : Json) (k : String) : Json :=
  match getField j k with
  | .ok v => v
  | .error _ => Json.null

/-- The question `parse_quiz` builds from a schema-conforming item (observer
used in theorem statements). -/
def extractQ (item : Json) : Question :=
  ⟨getD item "question", getD item "options", getD item "correct",
   getD item "explanation"⟩

/-- A question object carrying all four required fields. -/
def ItemOk (item : Json) : Prop :=
  (∃ v, getField item "question" = .ok v) ∧
  (∃ v, getField item "options" = .ok v) ∧
  (∃ v, getField item "correct" = .ok v) ∧
  (∃ v, getField item "explanation" = .ok v)

/-- A sample parsed question (correct answer letter `A`), used for concrete
instances. -/
def exQ : Question :=
  ⟨Json.str "q", Json.arr [Json.str "A: x", Json.str "B: y"], Json.str "A",
   Json.str "e"⟩

/-! ### Parsing lemmas -/

theorem parseItem_ok_of_itemOk (item : Json) (h : ItemOk item) :
    parseItem item = .ok (extractQ item) := by
  obtain ⟨⟨q, hq⟩, ⟨o, ho⟩, ⟨c, hc⟩, ⟨ex, he⟩⟩ := h
  simp [parseItem, hq, ho, hc, he, extractQ, getD]

theorem parseItem_error_of_not_itemOk (item : Json) (h : ¬ ItemOk item) :
    ∃ e, parseItem item = .error e := by
  cases hq : getField item "question" with
  | error e => exact ⟨e, by simp [parseItem, hq]⟩
  | ok q =>
    cases ho : getField item "options" with
    | error e => exact ⟨e, by simp [parseItem, hq, ho]⟩
    | ok o =>
      cases hc : getField item "correct" with
      | error e => exact ⟨e, by simp [parseItem, hq, ho, hc]⟩
      | ok c =>
        cases he : getField item "explanation" with
        | error e => exact ⟨e, by simp [parseItem, hq, ho, hc, he]⟩
        | ok ex =>
          exact absurd ⟨⟨q, hq⟩, ⟨o, ho⟩, ⟨c, hc⟩, ⟨ex, he⟩⟩ h

theorem parseItems_ok (items : List Json) (h : ∀ item ∈ items, ItemOk item) :
    parseItems items = .ok (items.map extractQ) := by
  induction items with
  | nil => rfl
  | cons item rest ih =>
    have h1 := parseItem_ok_of_itemOk item (h item (List.mem_cons_self item rest))
    have h2 := ih (fun it hit => h it (List.mem_cons_of_mem item hit))
    simp [parseItems, h1, h2]

theorem parseItems_error (items : List Json) (item : Json) (hm : item ∈ items)
    (he : ∃ e, parseItem item = .error e) : ∃ e, parseItems items = .error e := by
  induction items with
  | nil => cases hm
  | cons hd rest ih =>
    rcases List.mem_cons.mp hm with h | h
    · subst h
      obtain ⟨e, he⟩ := he
      exact ⟨e, by simp [parseItems, he]⟩
    · cases hhd : parseItem hd with
      | error e => exact ⟨e, by simp [parseItems, hhd]⟩
      | ok q =>
        obtain ⟨e, hrest⟩ := ih h
        exact ⟨e, by simp [parseItems, hhd, hrest]⟩

/-- C3: for every input string that is not valid JSON (`json.loads` fails,
the `loaded = none` case), and for every valid-JSON input whose top-level
object lacks the `questions` key or one of whose question objects lacks a
required field, `parse_quiz` ends in an error outcome — the `None` return or
a raised exception — and never yields a (partial) list of questions. -/
theorem C3_parse_malformed_never_partial (loaded : Option Json)
    (h : loaded = none ∨
      (∃ fields, loaded = some (Json.obj fields) ∧ fields.lookup "questions" = none) ∨
      (∃ data items, loaded = some data ∧
        getField data "questions" = .ok (.arr items) ∧
        ∃ item ∈ items, ¬ ItemOk item)) :
    parse_quiz loaded = .ok none ∨ ∃ e, parse_quiz loaded = .error e := by
  rcases h with h | ⟨fields, hl, hlook⟩ | ⟨data, items, hl, hq, item, hm, hbad⟩
  · subst h; exact Or.inl rfl
  · subst hl
    exact Or.inr ⟨.keyError, by simp [parse_quiz, getField, hlook]⟩
  · subst hl
    obtain ⟨e, he⟩ := parseItems_error items item hm
      (parseItem_error_of_not_itemOk item hbad)
    exact Or.inr ⟨e, by simp [parse_quiz, hq, iterElems, he]⟩

/-- Witness for C3 at a concrete malformed input: a top-level object without
the `questions` key. -/
theorem C3_parse_malformed_never_partial_witness :
    parse_quiz (some (Json.obj [("other", Json.null)])) = .ok none ∨
      ∃ e, parse_quiz (some (Json.obj [("other", Json.null)])) = .error e :=
  C3_parse_malformed_never_partial (some (Json.obj [("other", Json.null)]))
    (Or.inr (Or.inl ⟨[("other", Json.null)], rfl, rfl⟩))

/-- C4: for every valid JSON input whose top level carries the `questions`
key with a list of question objects each having the required fields,
`parse_quiz` succeeds with a list of the same length as the encoded list,
whose `i`-th entry is built from the `i`-th encoded question object (order
preserved). -/
theorem C4_parse_schema_ok (data : Json) (items : List Json)
    (h1 : getField data "questions" = .ok (.arr items))
    (h2 : ∀ item ∈ items, ItemOk item) :
    parse_quiz (some data) = .ok (some (items.map extractQ)) ∧
      (items.map extractQ).length = items.length := by
  refine ⟨?_, items.length_map extractQ⟩
  simp [parse_quiz, h1, iterElems, parseItems_ok items h2]

/-- Witness for C4 at a concrete one-question schema-conforming input. -/
theorem C4_parse_schema_ok_witness :
    parse_quiz (some (Json.obj [("questions", Json.arr
        [Json.obj [("question", Json.str "q"), ("options", Json.arr []),
                   ("correct", Json.str "A"), ("explanation", Json.str "e")]])])) =
      .ok (some ([Json.obj [("question", Json.str "q"), ("options", Json.arr []),
                   ("correct", Json.str "A"), ("explanation", Json.str "e")]].map extractQ)) ∧
      ([Json.obj [("question", Json.str "q"), ("options", Json.arr []),
                   ("correct", Json.str "A"), ("explanation", Json.str "e")]].map extractQ).length
        = [Json.obj [("question", Json.str "q"), ("options", Json.arr []),
                   ("correct", Json.str "A"), ("explanation", Json.str "e")]].length :=
  C4_parse_schema_ok _ _ rfl (by
    intro item hm
    rw [List.mem_singleton] at hm
    subst hm
    exact ⟨⟨_, rfl⟩, ⟨_, rfl⟩, ⟨_, rfl⟩, ⟨_, rfl⟩⟩)

/-! ### Scoring (C1) -/

/-- C1 counterexample: with one question and the non-absent answer string
`""`, subscripting `""[0]` raises, the bare `except` stops the submission,
and no score is computed — in particular the claimed count is not returned. -/
theorem C1_score_counterexample :
    scoreAnswers [exQ] [some ""] = .error () ∧
      scoreAnswers [exQ] [some ""] ≠ .ok (countMatches [exQ] [some ""]) :=
  ⟨rfl, fun h => Except.noConfusion h⟩

/-- C1 (amended): for every list of questions and every equal-length list of
non-absent, non-empty answer strings, the submission score equals the number
of positions whose answer's first character equals the question's `correct`
value, and lies between 0 and the number of questions. -/
theorem C1_score_eq_matches (qs : List Question) (ans : List (Option String))
    (hlen : ans.length = qs.length)
    (hne : ∀ a ∈ ans, ∃ s : String, a = some s ∧ s.data ≠ []) :
    scoreAnswers qs ans = .ok (countMatches qs ans) ∧
      countMatches qs ans ≤ qs.length := by
  induction qs generalizing ans with
  | nil =>
    cases ans with
    | nil => exact ⟨rfl, Nat.le_refl 0⟩
    | cons a ans' => simp at hlen
  | cons q qs' ih =>
    cases ans with
    | nil => simp at hlen
    | cons a ans' =>
      obtain ⟨s, rfl, hs⟩ := hne a (List.mem_cons_self a ans')
      cases hd : s.data with
      | nil => exact absurd hd hs
      | cons c cs =>
        have hlen' : ans'.length = qs'.length := by simpa using hlen
        have hne' : ∀ a ∈ ans', ∃ s : String, a = some s ∧ s.data ≠ [] :=
          fun a ha => hne a (List.mem_cons_of_mem _ ha)
        obtain ⟨h1, h2⟩ := ih ans' hlen' hne'
        have hcm : countMatches (q :: qs') (some s :: ans') =
            countMatches qs' ans' + (if jsonStrEq [c] q.correct then 1 else 0) := by
          simp [countMatches, List.countP_cons, hd]
        constructor
        · simp only [scoreAnswers, checkAnswer, hd, h1, hcm]
          cases jsonStrEq [c] q.correct <;> simp
        · rw [hcm]
          cases jsonStrEq [c] q.correct <;> simp <;> omega

/-- Witness for C1 at one question answered with the string `A: x`. -/
theorem C1_score_eq_matches_witness :
    scoreAnswers [exQ] [some "A: x"] = .ok (countMatches [exQ] [some "A: x"]) ∧
      countMatches [exQ] [some "A: x"] ≤ [exQ].length :=
  C1_score_eq_matches [exQ] [some "A: x"] rfl
    (fun a ha => ⟨"A: x", List.mem_singleton.mp ha, by decide⟩)

/-! ### Timing gate (C2) -/

theorem dtLtb_iff (a b : DT) : dtLtb a b = true ↔ dtLtProp a b := by
  unfold dtLtb dtLtProp
  split_ifs <;> simp_all

/-- C2: for every current time and every quiz window `[startTime, endTime]`,
the access gate is in exactly one of three states decided purely by
comparison: strictly before the start it rejects showing the start time,
inside the window (both boundaries included) it admits, and strictly after
the end it rejects showing the end time. -/
theorem C2_timing_gate (now s e : DT) (hwin : dtLeb s e = true) :
    (timingGate now s e = .beforeWindow s ↔ dtLtb now s = true) ∧
      (timingGate now s e = .openWindow ↔
        (dtLeb s now = true ∧ dtLeb now e = true)) ∧
      (timingGate now s e = .expired e ↔ dtLtb e now = true) := by
  have hw : ¬ dtLtProp e s := by
    have : dtLtb e s = false := by simpa [dtLeb] using hwin
    intro hc
    rw [← dtLtb_iff] at hc
    simp [this] at hc
  by_cases h1 : dtLtb now s = true
  · refine ⟨by simp [timingGate, h1], ?_, ?_⟩
    · simp [timingGate, h1, dtLeb]
    · simp only [timingGate, h1, if_true]
      constructor
      · intro h; exact absurd h (by simp)
      · intro h3
        have p1 := (dtLtb_iff now s).mp h1
        have p3 := (dtLtb_iff e now).mp h3
        exact absurd (by unfold dtLtProp at p1 p3 ⊢; omega : dtLtProp e s) hw
  · have h1' : dtLtb now s = false := by simpa using h1
    by_cases h2 : dtLtb e now = true
    · refine ⟨by simp [timingGate, h1', h2], ?_, by simp [timingGate, h1', h2]⟩
      simp [timingGate, h1', h2, dtLeb]
    · have h2' : dtLtb e now = false := by simpa using h2
      exact ⟨by simp [timingGate, h1', h2'], by simp [timingGate, h1', h2', dtLeb],
        by simp [timingGate, h1', h2']⟩

/-- Witness for C2 at concrete timestamps: both window boundaries admit and
a later time is expired. -/
theorem C2_timing_gate_witness :
    timingGate ⟨2024, 6, 1, 9, 0, 0, 0⟩ ⟨2024, 6, 1, 9, 0, 0, 0⟩ ⟨2024, 6, 1, 10, 0, 0, 0⟩
        = .openWindow ∧
      timingGate ⟨2024, 6, 1, 10, 0, 0, 0⟩ ⟨2024, 6, 1, 9, 0, 0, 0⟩ ⟨2024, 6, 1, 10, 0, 0, 0⟩
        = .openWindow ∧
      timingGate ⟨2024, 6, 1, 10, 0, 0, 1⟩ ⟨2024, 6, 1, 9, 0, 0, 0⟩ ⟨2024, 6, 1, 10, 0, 0, 0⟩
        = .expired ⟨2024, 6, 1, 10, 0, 0, 0⟩ :=
  ⟨(C2_timing_gate ⟨2024, 6, 1, 9, 0, 0, 0⟩ ⟨2024, 6, 1, 9, 0, 0, 0⟩
      ⟨2024, 6, 1, 10, 0, 0, 0⟩ (by decide)).2.1.mpr (by decide),
   (C2_timing_gate ⟨2024, 6, 1, 10, 0, 0, 0⟩ ⟨2024, 6, 1, 9, 0, 0, 0⟩
      ⟨2024, 6, 1, 10, 0, 0, 0⟩ (by decide)).2.1.mpr (by decide),
   (C2_timing_gate ⟨2024, 6, 1, 10, 0, 0, 1⟩ ⟨2024, 6, 1, 9, 0, 0, 0⟩
      ⟨2024, 6, 1, 10, 0, 0, 0⟩ (by decide)).2.2.mpr (by decide)⟩

/-! ### Submission validation (C6) -/

/-- C6: for every submission in which at least one answer is absent
(`None`), the submission is rejected; the scoring loop is never reached (no
score outcome) and the result store is unchanged (no ResultRecord
created). -/
theorem C6_absent_answer_rejected (parsed : List Question)
    (userAnswers : List (Option String)) (studentName : String) (now : DT)
    (rs : FileStore) (h : none ∈ userAnswers) :
    submitAnswers parsed userAnswers studentName now rs = (rs, .validationRejected) := by
  simp [submitAnswers, h]

/-- Witness for C6 at a concrete submission with one unanswered question. -/
theorem C6_absent_answer_rejected_witness :
    submitAnswers [exQ, exQ] [some "A: x", none] "bob" ⟨2024, 6, 1, 12, 0, 0, 0⟩ ⟨[]⟩
      = (⟨[]⟩, .validationRejected) :=
  C6_absent_answer_rejected [exQ, exQ] [some "A: x", none] "bob"
    ⟨2024, 6, 1, 12, 0, 0, 0⟩ ⟨[]⟩ (by decide)

/-! ### Name normalization (C9) -/

theorem head_dropWhile_false {α : Type} (p : α → Bool) (l : List α) (c : α)
    (h : (l.dropWhile p).head? = some c) : p c = false := by
  induction l with
  | nil => simp [List.dropWhile] at h
  | cons a l ih =>
    by_cases hpa : p a
    · rw [List.dropWhile_cons_of_pos hpa] at h
      exact ih h
    · rw [List.dropWhile_cons_of_neg hpa] at h
      simp at h
      subst h
      simpa using hpa

theorem getLast_dropWhile_eq {α : Type} (p : α → Bool) (l : List α) (c : α)
    (h : (l.dropWhile p).getLast? = some c) : l.getLast? = some c := by
  induction l with
  | nil => simp [List.dropWhile] at h
  | cons a l ih =>
    by_cases hpa : p a
    · rw [List.dropWhile_cons_of_pos hpa] at h
      have hl := ih h
      cases l with
      | nil => simp at hl
      | cons b l' => rw [List.getLast?_cons_cons]; exact hl
    · rwa [List.dropWhile_cons_of_neg hpa] at h

theorem pyStrip_eq_nil_all_space (l : List Char) (h : pyStrip l = []) :
    ∀ c ∈ l, pyIsSpace c = true := by
  intro c hc
  have hD : (l.dropWhile pyIsSpace).reverse.dropWhile pyIsSpace = [] := by
    have := congrArg List.reverse h
    simpa [pyStrip] using this
  have hM : ∀ c ∈ (l.dropWhile pyIsSpace).reverse, pyIsSpace c = true := by
    rw [List.dropWhile_eq_nil_iff] at hD
    exact hD
  have hdrop : ∀ c ∈ l.dropWhile pyIsSpace, pyIsSpace c = true := by
    intro c hc
    exact hM c (List.mem_reverse.mpr hc)
  have hsplit := List.takeWhile_append_dropWhile (p := pyIsSpace) (l := l)
  rw [← hsplit] at hc
  rcases List.mem_append.mp hc with h1 | h1
  · exact List.mem_takeWhile_imp h1
  · exact hdrop c h1

/-- C9 counterexample: on the non-empty all-whitespace input `" "` the code
stores the sentinel `Unknown`, while the claim's normalization (replace
whitespace, sentinel only for empty input) yields `"_"`. -/
theorem C9_name_counterexample :
    normalizeName " " = "Unknown" ∧ specNormalizeName " " = "_" ∧
      ("Unknown" : String) ≠ "_" :=
  ⟨rfl, rfl, by decide⟩

/-- C9 (amended): the stored student name is the raw input stripped of
surrounding whitespace with each remaining space replaced by an underscore;
the sentinel `Unknown` is stored whenever the input consists entirely of
whitespace (in particular when it is empty).  The stored name is never empty
and never contains a space. -/
theorem C9_name_normalization (s : String) :
    normalizeName s ≠ "" ∧
      (' ' ∉ (normalizeName s).data) ∧
      ((∀ c ∈ s.data, pyIsSpace c = true) → normalizeName s = "Unknown") ∧
      ((∃ c ∈ s.data, pyIsSpace c = false) →
        normalizeName s =
          String.mk ((pyStrip s.data).map (fun c => if c = ' ' then '_' else c))) := by
  refine ⟨?_, ?_, ?_, ?_⟩
  · by_cases h : String.mk ((pyStrip s.data).map (fun c => if c = ' ' then '_' else c)) = ""
    · simp [normalizeName, h]
    · simp only [normalizeName, if_neg h]
      exact h
  · by_cases h : String.mk ((pyStrip s.data).map (fun c => if c = ' ' then '_' else c)) = ""
    · simp [normalizeName, h]
    · simp only [normalizeName, if_neg h]
      intro hmem
      obtain ⟨x, _, hx⟩ := List.mem_map.mp hmem
      by_cases hxs : x = ' '
      · simp [hxs] at hx
      · simp [hxs] at hx
  · intro hall
    have hnil : pyStrip s.data = [] := by
      have h1 : s.data.dropWhile pyIsSpace = [] :=
        List.dropWhile_eq_nil_iff.mpr (fun c hc => by simp [hall c hc])
      simp [pyStrip, h1]
    simp [normalizeName, hnil]
  · intro ⟨c, hc, hcs⟩
    have hne : pyStrip s.data ≠ [] := by
      intro h
      have := pyStrip_eq_nil_all_space s.data h c hc
      rw [this] at hcs
      cases hcs
    have hr : String.mk ((pyStrip s.data).map (fun c => if c = ' ' then '_' else c)) ≠ "" := by
      intro h
      have hd : (pyStrip s.data).map (fun c => if c = ' ' then '_' else c) = [] :=
        congrArg String.data h
      exact hne (List.map_eq_nil_iff.mp hd)
    simp only [normalizeName, if_neg hr]

/-- Witness for C9: a padded two-word name is stored with an underscore, and
a whitespace-only name is stored as the sentinel. -/
theorem C9_name_normalization_witness :
    normalizeName " a b " = "a_b" ∧ normalizeName "\t " = "Unknown" :=
  ⟨((C9_name_normalization " a b ").2.2.2 ⟨'a', by decide, by decide⟩).trans rfl,
   (C9_name_normalization "\t ").2.2.1 (by decide)⟩

/-! ### Fence stripping (C7) -/

theorem stripJsonTag_cons_ne (c : Char) (cs : List Char) (h : c ≠ '`') :
    stripJsonTag (c :: cs) = c :: stripJsonTag cs := by
  conv_lhs => rw [stripJsonTag.eq_def]
  split
  · rename_i rest heq
    injection heq with h1 _
    exact absurd h1 h
  · rename_i heq1 c' rest heq
    injection heq with h1 h2
    rw [h1, h2]
  · rename_i x heq
    cases heq

theorem stripTicks_cons_ne (c : Char) (cs : List Char) (h : c ≠ '`') :
    stripTicks (c :: cs) = c :: stripTicks cs := by
  conv_lhs => rw [stripTicks.eq_def]
  split
  · rename_i rest heq
    injection heq with h1 _
    exact absurd h1 h
  · rename_i heq1 c' rest heq
    injection heq with h1 h2
    rw [h1, h2]
  · rename_i x heq
    cases heq

theorem stripJsonTag_clean_append (body : List Char) (h : ∀ c ∈ body, c ≠ '`') :
    stripJsonTag (body ++ "```".data) = body ++ "```".data := by
  induction body with
  | nil => rfl
  | cons c cs ih =>
    rw [List.cons_append, stripJsonTag_cons_ne c _ (h c (List.mem_cons_self c cs)),
      ih (fun x hx => h x (List.mem_cons_of_mem c hx))]

theorem stripTicks_clean_append (body : List Char) (h : ∀ c ∈ body, c ≠ '`') :
    stripTicks (body ++ "```".data) = body := by
  induction body with
  | nil => rfl
  | cons c cs ih =>
    rw [List.cons_append, stripTicks_cons_ne c _ (h c (List.mem_cons_self c cs)),
      ih (fun x hx => h x (List.mem_cons_of_mem c hx))]

theorem noEdgeWS_pyStrip (l : List Char) : noEdgeWS (pyStrip l) := by
  constructor
  · intro c hc
    have hc' : ((l.dropWhile pyIsSpace).reverse.dropWhile pyIsSpace).getLast? = some c := by
      rw [← List.head?_reverse]
      exact hc
    have h2 := getLast_dropWhile_eq _ _ _ hc'
    rw [List.getLast?_reverse] at h2
    exact head_dropWhile_false _ _ _ h2
  · intro c hc
    unfold pyStrip at hc
    rw [List.getLast?_reverse] at hc
    exact head_dropWhile_false _ _ _ hc

/-- C7 counterexample: a trimmed response that starts with an opening fence
but is not wrapped (no closing fence) is still rewritten — the code tests
only `startswith` and erases the tag everywhere — while the claim promises
such text back unchanged. -/
theorem C7_generate_counterexample :
    generate_quiz "```json X" = "X" ∧ ("X" : String) ≠ "```json X" :=
  ⟨rfl, by decide⟩

/-- C7 (amended): the generator returns the service text trimmed of
surrounding whitespace; a trimmed text that does not start with a code-fence
marker is returned with its content otherwise unchanged; and a trimmed text
that is wrapped as an opening `json`-tagged fence plus a closing fence
around a backtick-free body is returned as the trimmed body.  (When the text
merely starts with a fence, all fence/tag occurrences are erased, not just
the wrapping ones.) -/
theorem C7_generate_post (text : String) :
    noEdgeWS (generate_quiz text).data ∧
      (fenceStart (pyStrip text.data) = false →
        generate_quiz text = String.mk (pyStrip text.data)) ∧
      (∀ body : List Char, (∀ c ∈ body, c ≠ '`') →
        pyStrip text.data = "```json".data ++ (body ++ "```".data) →
        generate_quiz text = String.mk (pyStrip body)) := by
  refine ⟨?_, ?_, ?_⟩
  · by_cases h : fenceStart (pyStrip text.data) = true
    · simp only [generate_quiz, h, if_true]
      exact noEdgeWS_pyStrip _
    · simp only [generate_quiz, h, if_false]
      exact noEdgeWS_pyStrip _
  · intro h
    simp [generate_quiz, h]
  · intro body hclean heq
    have hcons : "```json".data = '`' :: '`' :: '`' :: 'j' :: 's' :: 'o' :: 'n' :: [] := rfl
    have hfence : fenceStart (pyStrip text.data) = true := by
      rw [heq, hcons]
      rfl
    have htag : stripJsonTag (pyStrip text.data) = body ++ "```".data := by
      rw [heq, hcons]
      show stripJsonTag (body ++ "```".data) = body ++ "```".data
      exact stripJsonTag_clean_append body hclean
    simp only [generate_quiz, hfence, if_true, htag,
      stripTicks_clean_append body hclean]

/-- Witness for C7: an unfenced padded text is only trimmed; a cleanly
wrapped body is unwrapped. -/
theorem C7_generate_post_witness :
    generate_quiz "  hi  " = "hi" ∧ generate_quiz "```jsonA```" = "A" :=
  ⟨((C7_generate_post "  hi  ").2.1 (by decide)).trans rfl,
   ((C7_generate_post "```jsonA```").2.2 "A".data (by decide) (by decide)).trans rfl⟩

/-! ### Timestamp round trip (C5) -/

theorem digChar_isDigit (m : Nat) (h : m < 10) : (digChar m).isDigit = true := by
  interval_cases m <;> decide

theorem digVal_digChar (m : Nat) (h : m < 10) : digVal (digChar m) = m := by
  interval_cases m <;> decide

theorem digitAt_isDigit (n pos : Nat) : (digitAt n pos).isDigit = true :=
  digChar_isDigit _ (Nat.mod_lt _ (by omega))

theorem digVal_digitAt (n pos : Nat) : digVal (digitAt n pos) = n / pos % 10 :=
  digVal_digChar _ (Nat.mod_lt _ (by omega))

theorem daysInMonth_le (y m : Nat) : daysInMonth y m ≤ 31 := by
  unfold daysInMonth
  split_ifs <;> omega

theorem parse4_pad4 (n : Nat) (rest : List Char) (h : n < 10000) :
    parse4 (pad4 n ++ rest) = some (n, rest) := by
  simp [pad4, parse4, digitAt_isDigit, digVal_digitAt]
  omega

theorem parse2_pad2 (n : Nat) (rest : List Char) (h : n < 100) :
    parse2 (pad2 n ++ rest) = some (n, rest) := by
  simp [pad2, parse2, digitAt_isDigit, digVal_digitAt]
  omega

theorem parse6_pad6 (n : Nat) (rest : List Char) (h : n < 1000000) :
    parse6 (pad6 n ++ rest) = some (n, rest) := by
  simp [pad6, parse6, digitAt_isDigit, digVal_digitAt]
  omega

theorem expectChar_self (c : Char) (rest : List Char) :
    expectChar c (c :: rest) = some rest := by
  simp [expectChar]

theorem expectSep_space (rest : List Char) : expectSep (' ' :: rest) = some rest := by
  simp [expectSep]

/-- `datetime.fromisoformat` inverts `str(datetime)` on every constructible
`datetime` value. -/
theorem fromiso_strdt (dt : DT) (h : dt.validb = true) :
    fromisoformat (str_dt dt) = some dt := by
  obtain ⟨y, mo, d, hh, mi, sec, us⟩ := dt
  have hy : y < 10000 := by simp [DT.validb] at h; omega
  have hmo : mo < 100 := by simp [DT.validb] at h; omega
  have hd : d < 100 := by
    have h31 := daysInMonth_le y mo
    simp [DT.validb] at h
    omega
  have hhh : hh < 100 := by simp [DT.validb] at h; omega
  have hmi : mi < 100 := by simp [DT.validb] at h; omega
  have hsec : sec < 100 := by simp [DT.validb] at h; omega
  have hus : us < 1000000 := by simp [DT.validb] at h; omega
  unfold str_dt fromisoformat
  simp only
  by_cases hm0 : us = 0
  · subst hm0
    rw [if_pos rfl]
    rw [parse4_pad4 _ _ hy]
    simp only [Option.bind_eq_bind, Option.some_bind, expectChar_self]
    rw [parse2_pad2 _ _ hmo]
    simp only [Option.some_bind, expectChar_self]
    rw [parse2_pad2 _ _ hd]
    simp only [Option.some_bind, expectSep_space]
    rw [parse2_pad2 _ _ hhh]
    simp only [Option.some_bind, expectChar_self]
    rw [parse2_pad2 _ _ hmi]
    simp only [Option.some_bind, expectChar_self]
    rw [parse2_pad2 _ _ hsec]
    simp only [Option.some_bind, parseFrac]
    rw [if_pos h]
  · rw [if_neg hm0]
    rw [parse4_pad4 _ _ hy]
    simp only [Option.bind_eq_bind, Option.some_bind, expectChar_self]
    rw [parse2_pad2 _ _ hmo]
    simp only [Option.some_bind, expectChar_self]
    rw [parse2_pad2 _ _ hd]
    simp only [Option.some_bind, expectSep_space]
    rw [parse2_pad2 _ _ hhh]
    simp only [Option.some_bind, expectChar_self]
    rw [parse2_pad2 _ _ hmi]
    simp only [Option.some_bind, expectChar_self]
    rw [parse2_pad2 _ _ hsec]
    simp only [Option.some_bind, parseFrac]
    have h6 := parse6_pad6 us [] hus
    rw [List.append_nil] at h6
    rw [h6]
    simp only [Option.some_bind]
    rw [if_pos h]

/-- C5: saving the current quiz and then loading it yields a record with the
identical raw quiz text, and start/end times equal to the originals after
re-parsing their serialized (`str(datetime)`) textual form with
`fromisoformat`. -/
theorem C5_quiz_roundtrip (text : String) (s e : DT)
    (hs : s.validb = true) (he : e.validb = true) :
    ∃ j, load_quiz_file (save_quiz_file text (String.mk (str_dt s)) (String.mk (str_dt e)))
          = some j ∧
        getField j "quiz_text" = .ok (.str text) ∧
        readTime j "start_time" = some s ∧
        readTime j "end_time" = some e := by
  refine ⟨_, rfl, rfl, ?_, ?_⟩
  · have hlook : getField (Json.obj [("quiz_text", Json.str text),
        ("start_time", Json.str (String.mk (str_dt s))),
        ("end_time", Json.str (String.mk (str_dt e)))]) "start_time"
        = .ok (.str (String.mk (str_dt s))) := rfl
    simp only [readTime, hlook]
    exact fromiso_strdt s hs
  · have hlook : getField (Json.obj [("quiz_text", Json.str text),
        ("start_time", Json.str (String.mk (str_dt s))),
        ("end_time", Json.str (String.mk (str_dt e)))]) "end_time"
        = .ok (.str (String.mk (str_dt e))) := rfl
    simp only [readTime, hlook]
    exact fromiso_strdt e he

/-- Witness for C5 at a concrete quiz text and window. -/
theorem C5_quiz_roundtrip_witness :
    ∃ j, load_quiz_file (save_quiz_file "quiz-body"
          (String.mk (str_dt ⟨2024, 6, 1, 9, 0, 0, 0⟩))
          (String.mk (str_dt ⟨2024, 6, 1, 10, 30, 0, 500000⟩))) = some j ∧
        getField j "quiz_text" = .ok (.str "quiz-body") ∧
        readTime j "start_time" = some ⟨2024, 6, 1, 9, 0, 0, 0⟩ ∧
        readTime j "end_time" = some ⟨2024, 6, 1, 10, 30, 0, 500000⟩ :=
  C5_quiz_roundtrip "quiz-body" ⟨2024, 6, 1, 9, 0, 0, 0⟩ ⟨2024, 6, 1, 10, 30, 0, 500000⟩
    (by decide) (by decide)

/-! ### Result store (C8) -/

theorem slash_ne_digitAt (n pos : Nat) : ¬ ('/' = digitAt n pos) := by
  intro h
  have := digitAt_isDigit n pos
  rw [← h] at this
  simp [Char.isDigit] at this

theorem slash_not_mem_fmtTimestamp (now : DT) : '/' ∉ fmtTimestamp now := by
  simp [fmtTimestamp, pad4, pad2, slash_ne_digitAt]

theorem data_append (a b : String) : (a ++ b).data = a.data ++ b.data := rfl

theorem writeFile_mem (rs : FileStore) (fn : String) (c : Json) :
    (fn, c) ∈ (writeFile rs fn c).files := by
  unfold writeFile
  by_cases hany : rs.files.any (fun p => p.1 == fn)
  · simp only [hany, if_true]
    obtain ⟨p, hp, hpeq⟩ := List.any_eq_true.mp hany
    refine List.mem_map.mpr ⟨p, hp, ?_⟩
    simp only [hpeq, if_true]
  · simp only [hany, if_false]
    exact List.mem_append_right _ (List.mem_singleton.mpr rfl)

/-- C8: appending a result record to any prior store and then enumerating all
results yields a collection containing that record, in any enumeration
order (`glob` order is unspecified, so the post-append store is quantified
up to permutation). -/
theorem C8_append_listAll (studentName : String) (score : Nat)
    (qs : List Question) (ans : List (Option String)) (now : DT)
    (rs : FileStore) (rlist : List Json)
    (hname : '/' ∉ studentName.data)
    (hbuild : buildResults qs ans = some rlist)
    (rs2 : FileStore)
    (hperm : rs2.files.Perm (save_student_results studentName score qs ans now rs).1.files) :
    Json.obj [("student_name", .str studentName), ("score", .num score),
      ("answers", .arr rlist)] ∈ load_all_results rs2 := by
  simp only [save_student_results, hbuild] at hperm
  set fn : String :=
    "results_" ++ studentName ++ "_" ++ String.mk (fmtTimestamp now) ++ ".json" with hfn
  set record : Json := Json.obj [("student_name", .str studentName),
    ("score", .num score), ("answers", .arr rlist)] with hrec
  have hmem2 : (fn, record) ∈ rs2.files :=
    hperm.mem_iff.mpr (writeFile_mem rs fn record)
  have hdata : fn.data = "results_".data ++
      ((studentName.data ++ '_' :: fmtTimestamp now) ++ ".json".data) := by
    simp [hfn, data_append, List.append_assoc]
  have hglob : globMatch fn = true := by
    have h1 : fn.data.take 8 = "results_".data := by
      rw [hdata]
      exact List.take_left' rfl
    have h2 : 13 ≤ fn.data.length := by
      rw [hdata]
      simp
      omega
    have h3 : fn.data.drop (fn.data.length - 5) = ".json".data := by
      have hassoc : fn.data = ("results_".data ++
          (studentName.data ++ '_' :: fmtTimestamp now)) ++ ".json".data := by
        rw [hdata]
        simp [List.append_assoc]
      rw [hassoc]
      refine List.drop_left' ?_
      simp
      omega
    have h4 : '/' ∉ fn.data := by
      rw [hdata]
      simp [List.mem_append, hname, slash_not_mem_fmtTimestamp]
    unfold globMatch
    rw [h1, h3, decide_eq_true h2, decide_eq_true h4]
    simp
  exact List.mem_map.mpr ⟨(fn, record), List.mem_filter.mpr ⟨hmem2, hglob⟩, rfl⟩

/-- Witness for C8: a concrete record appended to the empty store is listed. -/
theorem C8_append_listAll_witness :
    Json.obj [("student_name", .str "bob"), ("score", .num 1),
      ("answers", .arr [mkAnswerJson exQ (some "A: x")])] ∈
      load_all_results (save_student_results "bob" 1 [exQ] [some "A: x"]
        ⟨2024, 6, 1, 12, 0, 0, 0⟩ ⟨[]⟩).1 :=
  C8_append_listAll "bob" 1 [exQ] [some "A: x"] ⟨2024, 6, 1, 12, 0, 0, 0⟩ ⟨[]⟩
    [mkAnswerJson exQ (some "A: x")] (by decide) rfl _ (List.Perm.refl _)

/-! ### Results are written only inside the window (C10) -/

/-- C10: in every execution of the student flow, any result file present
afterwards either already existed or the loaded quiz window `[s, e]` was
extractable and satisfied `s <= now <= e` at that execution — no result file
is ever created before the window opens or after it expires. -/
theorem C10_write_only_when_open (loads : String → Option Json)
    (quizFile : Option Json) (now : DT) (selections : Nat → Option String)
    (submitted : Bool) (rawName : String) (rs : FileStore) (fn : String) (c : Json)
    (hmem : (fn, c) ∈
      (studentMode loads quizFile now selections submitted rawName rs).1.files) :
    (fn, c) ∈ rs.files ∨
      ∃ s e, quizWindow quizFile = some (s, e) ∧
        dtLeb s now = true ∧ dtLeb now e = true := by
  cases quizFile with
  | none => exact Or.inl (by simpa [studentMode] using hmem)
  | some qd =>
    cases htr : jsonTruthy qd with
    | false => exact Or.inl (by simpa [studentMode, htr] using hmem)
    | true =>
      cases hqt : getField qd "quiz_text" with
      | error e => exact Or.inl (by simpa [studentMode, htr, hqt] using hmem)
      | ok qt =>
        cases hst : readTime qd "start_time" with
        | none => exact Or.inl (by simpa [studentMode, htr, hqt, hst] using hmem)
        | some s =>
          cases het : readTime qd "end_time" with
          | none => exact Or.inl (by simpa [studentMode, htr, hqt, hst, het] using hmem)
          | some e =>
            cases hg : timingGate now s e with
            | beforeWindow t =>
              exact Or.inl (by simpa [studentMode, htr, hqt, hst, het, hg] using hmem)
            | expired t =>
              exact Or.inl (by simpa [studentMode, htr, hqt, hst, het, hg] using hmem)
            | openWindow =>
              refine Or.inr ⟨s, e, by simp [quizWindow, hst, het], ?_, ?_⟩
              · have hgate := hg
                unfold timingGate at hgate
                by_cases h1 : dtLtb now s = true
                · simp [h1] at hgate
                · have h1' : dtLtb now s = false := by simpa using h1
                  simp [dtLeb, h1']
              · have hgate := hg
                unfold timingGate at hgate
                by_cases h1 : dtLtb now s = true
                · simp [h1] at hgate
                · have h1' : dtLtb now s = false := by simpa using h1
                  by_cases h2 : dtLtb e now = true
                  · simp [h1', h2] at hgate
                  · have h2' : dtLtb e now = false := by simpa using h2
                    simp [dtLeb, h2']

/-- Witness for C10: a concrete in-window submission writes its record, and
the theorem yields the open-window certificate for it. -/
theorem C10_write_only_when_open_witness :
    ("results_bob_2024-06-01_09-30-00.json",
      Json.obj [("student_name", Json.str "bob"), ("score", Json.num 1),
        ("answers", Json.arr [Json.obj [("question", Json.str "q"),
          ("student_answer", Json.str "A: x"), ("correct_answer", Json.str "A"),
          ("explanation", Json.str "e")]])]) ∈ (⟨[]⟩ : FileStore).files ∨
      ∃ s e, quizWindow (some (Json.obj [("quiz_text", Json.str "qt"),
          ("start_time", Json.str "2024-06-01 09:00:00"),
          ("end_time", Json.str "2024-06-01 10:00:00")])) = some (s, e) ∧
        dtLeb s ⟨2024, 6, 1, 9, 30, 0, 0⟩ = true ∧
        dtLeb ⟨2024, 6, 1, 9, 30, 0, 0⟩ e = true :=
  C10_write_only_when_open
    (fun _ => some (Json.obj [("questions", Json.arr [Json.obj
      [("question", Json.str "q"), ("options", Json.arr [Json.str "A: x"]),
       ("correct", Json.str "A"), ("explanation", Json.str "e")]])]))
    (some (Json.obj [("quiz_text", Json.str "qt"),
      ("start_time", Json.str "2024-06-01 09:00:00"),
      ("end_time", Json.str "2024-06-01 10:00:00")]))
    ⟨2024, 6, 1, 9, 30, 0, 0⟩ (fun _ => some "A: x") true "bob" ⟨[]⟩
    "results_bob_2024-06-01_09-30-00.json"
    (Json.obj [("student_name", Json.str "bob"), ("score", Json.num 1),
        ("answers", Json.arr [Json.obj [("question", Json.str "q"),
          ("student_answer", Json.str "A: x"), ("correct_answer", Json.str "A"),
          ("explanation", Json.str "e")]])])
    (List.Mem.head _)

end QuizApp
